import Mathlib

/-!
Verification development for the mail ingestion / classification pipeline
(backend services: imapService, aiCategorizationService, elasticsearchService,
emailController).  All definitions are a shallow embedding of the TypeScript
source; external collaborators (OpenAI classifier call, Elasticsearch server,
MongoDB driver) appear as explicit oracle parameters whose *handling* is the
embedded code's own logic.
-/

/-- Model of JavaScript string character lower-casing for the ASCII range
(the only characters the embedded string literals use). -/
def lcChar (c : Char) : Char :=
  if 'A' ≤ c ∧ c ≤ 'Z' then Char.ofNat (c.toNat + 32) else c

/-- Model of JS `String.prototype.toLowerCase`. -/
def lower (s : String) : String := ⟨s.toList.map lcChar⟩

/-- Character at which JS `trim` strips (ASCII whitespace suffices here). -/
def isJsSpace (c : Char) : Bool := c = ' ' || c = '\t' || c = '\n' || c = '\r'

/-- Model of JS `String.prototype.trim`. -/
def jsTrim (s : String) : String :=
  ⟨((s.toList.dropWhile isJsSpace).reverse.dropWhile isJsSpace).reverse⟩

/-- `charsLead pat l` : `pat` is a leading segment of `l`. -/
def charsLead : List Char → List Char → Bool
  | [], _ => true
  | _ :: _, [] => false
  | a :: as, b :: bs => a == b && charsLead as bs

/-- `charsHold pat l` : `pat` occurs contiguously somewhere inside `l`. -/
def charsHold (pat : List Char) : List Char → Bool
  | [] => charsLead pat []
  | c :: cs => charsLead pat (c :: cs) || charsHold pat cs

/-- Model of JS `String.prototype.includes` (substring containment). -/
def containsSub (text pat : String) : Bool := charsHold pat.toList text.toList

/-- Model of JS `a || b` for two strings (empty string is falsy). -/
def jsOrStr (a b : String) : String := if a = "" then b else a

/-- Model of JS `a || b` where `a` may be `undefined` (and `""` is falsy). -/
def jsOptOr : Option String → String → String
  | none, d => d
  | some s, d => if s = "" then d else s

/-- The closed category enumeration of `models/Email` /
`aiCategorizationService`. -/
inductive Category
  | interested
  | meetingBooked
  | notInterested
  | spam
  | outOfOffice
deriving DecidableEq

/-- The string literal each category is stored as. -/
def Category.label : Category → String
  | .interested => "Interested"
  | .meetingBooked => "Meeting Booked"
  | .notInterested => "Not Interested"
  | .spam => "Spam"
  | .outOfOffice => "Out of Office"

/-- `validCategories` of `aiCategorizationService.categorizeEmail`. -/
def validCategories : List Category :=
  [.interested, .meetingBooked, .notInterested, .spam, .outOfOffice]

/-- Attachment metadata kept by the pipeline (`{filename, size}`). -/
structure Attachment where
  filename : String
  size : Nat
deriving DecidableEq

/-- The canonical stored message record (`models/Email`); `category` is
`none` while the record is uncategorized. -/
structure Email where
  messageId : String
  account : String
  folder : String
  fromAddr : String
  toAddrs : List String
  subject : String
  body : String
  html : String
  date : Int
  isRead : Bool
  isFlagged : Bool
  attachments : List Attachment
  category : Option Category
deriving DecidableEq

/-- Raw attachment as it comes out of the mail parser. -/
structure RawAttachment where
  filename : Option String
  size : Option Nat
deriving DecidableEq

/-- Output of `simpleParser` for one raw message, restricted to the fields
the pipeline reads.  `none` models a missing (`undefined`) field. -/
structure ParsedMail where
  messageId : Option String
  fromText : Option String
  toAddrs : Option (List String)
  subject : Option String
  text : Option String
  html : Option String
  date : Option Int
  attachments : List RawAttachment
deriving DecidableEq

/-- Environment configuration read by `aiCategorizationService`. -/
structure AIConfig where
  dummyMode : Bool
  apiKeySet : Bool
  model : String
deriving DecidableEq

/-- Failure kinds of the OpenAI call distinguished by the catch handler in
`categorizeEmail` (quota / model-access / anything else). -/
inductive AIError
  | quota
  | modelAccess
  | other
deriving DecidableEq

/-- `validModels` of `aiCategorizationService.categorizeEmail`. -/
def validModels : List String :=
  ["gpt-3.5-turbo", "gpt-4", "gpt-4-turbo-preview", "gpt-4-turbo", "gpt-4o", "gpt-4o-mini"]

/-- The `email.body || email.html || ''` content selection plus the
`subject body` lower-cased concatenation used by every heuristic inside
`categorizeEmail`. -/
def aiText (e : Email) : String :=
  lower (e.subject ++ " " ++ jsOrStr e.body e.html)

/-- Dummy-mode heuristic of `categorizeEmail` (the big `isDummyMode`
branch, including the two-step Spam test). -/
def dummyHeuristic (t : String) : Option Category :=
  if containsSub t "out of office" || containsSub t "ooo" || containsSub t "auto-reply"
      || containsSub t "automatic reply" then some .outOfOffice
  else if containsSub t "meeting" || containsSub t "schedule" || containsSub t "calendar"
      || containsSub t "appointment" then some .meetingBooked
  else if containsSub t "interested" || containsSub t "learn more" || containsSub t "pricing"
      || containsSub t "quote" || containsSub t "demo" then some .interested
  else if containsSub t "not interested" || containsSub t "decline"
      || containsSub t "unsubscribe" then some .notInterested
  else if containsSub t "unsubscribe" || containsSub t "promotion" || containsSub t "promo"
      || containsSub t "discount" || containsSub t "limited time" || containsSub t "free cash"
      || (containsSub t "free" && (containsSub t "money" || containsSub t "cash" || containsSub t "prize"))
      || containsSub t "click here" || containsSub t "act now"
      || containsSub t "limited offer" then some .spam
  else if containsSub t "free" || containsSub t "offer" || containsSub t "deal"
      || containsSub t "sale" then some .spam
  else none

/-- The four identical heuristic fallbacks inside `categorizeEmail`
(no API key / invalid model / quota error / model-access error / other
error all run this same chain). -/
def aiFallbackHeuristic (t : String) : Option Category :=
  if containsSub t "out of office" || containsSub t "ooo" then some .outOfOffice
  else if containsSub t "meeting" || containsSub t "schedule" then some .meetingBooked
  else if containsSub t "interested" || containsSub t "learn more" then some .interested
  else if containsSub t "spam" || containsSub t "unsubscribe" || containsSub t "promo" then some .spam
  else none

/-- `categorizeEmail` of `aiCategorizationService`.  The OpenAI chat call is
an oracle: `resp` is either the (optional) content string of the first
choice, or the error the call raised.  Every other branch is the service's
own logic, translated directly. -/
def categorizeEmail (e : Email) (cfg : AIConfig)
    (resp : Except AIError (Option String)) : Option Category :=
  if cfg.dummyMode then dummyHeuristic (aiText e)
  else if !cfg.apiKeySet then aiFallbackHeuristic (aiText e)
  else if !(validModels.contains (lower cfg.model)) then aiFallbackHeuristic (aiText e)
  else
    match resp with
    | .error _ => aiFallbackHeuristic (aiText e)
    | .ok none => none
    | .ok (some content) =>
      let category := jsTrim content
      if category = "" then none
      else
        match validCategories.find? (fun c => lower c.label = lower category) with
        | some c => some c
        | none => none

/-- The lower-cased `subject body` text of the fallback heuristics inside
`imapService.fetchAndProcessEmails`. -/
def heurText (subject body : String) : String :=
  lower subject ++ " " ++ lower body

/-- Out-of-Office markers of the imapService fallback heuristic. -/
def oooHit (t : String) : Bool :=
  containsSub t "out of office" || containsSub t "ooo" || containsSub t "auto-reply"

/-- Meeting markers of the imapService fallback heuristic. -/
def meetingHit (t : String) : Bool :=
  containsSub t "meeting" || containsSub t "schedule" || containsSub t "calendar"

/-- Interested markers of the imapService fallback heuristic. -/
def interestedHit (t : String) : Bool :=
  containsSub t "interested" || containsSub t "learn more" || containsSub t "pricing"

/-- Not-Interested markers of the imapService fallback heuristic. -/
def notInterestedHit (t : String) : Bool :=
  containsSub t "not interested" || containsSub t "decline"

/-- Spam markers of the imapService fallback heuristic. -/
def spamHit (t : String) : Bool :=
  containsSub t "free" || containsSub t "cash" || containsSub t "promo"
    || containsSub t "discount" || containsSub t "offer" || containsSub t "deal"
    || containsSub t "unsubscribe"

/-- The keyword fallback heuristic of `imapService.fetchAndProcessEmails`
(run when `categorizeEmail` yields no category). -/
def imapFallbackHeuristic (subject body : String) : Option Category :=
  let t := heurText subject body
  if oooHit t then some .outOfOffice
  else if meetingHit t then some .meetingBooked
  else if interestedHit t then some .interested
  else if notInterestedHit t then some .notInterested
  else if spamHit t then some .spam
  else none

/-- C3: the keyword-heuristic stage matches markers over the lower-cased
concatenation of subject and body in the fixed priority order
Out-of-Office, Meeting, Interested, Not-Interested, Spam, first match
winning (in particular a text with both an Out-of-Office and a Spam marker
resolves to Out of Office), and when no marker class matches it yields no
category. -/
theorem C3_heuristic_priority (subject body : String) :
    (oooHit (heurText subject body) = true →
      imapFallbackHeuristic subject body = some Category.outOfOffice)
    ∧ (oooHit (heurText subject body) = true ∧ spamHit (heurText subject body) = true →
      imapFallbackHeuristic subject body = some Category.outOfOffice)
    ∧ (oooHit (heurText subject body) = false → meetingHit (heurText subject body) = true →
      imapFallbackHeuristic subject body = some Category.meetingBooked)
    ∧ (oooHit (heurText subject body) = false → meetingHit (heurText subject body) = false →
        interestedHit (heurText subject body) = true →
      imapFallbackHeuristic subject body = some Category.interested)
    ∧ (oooHit (heurText subject body) = false → meetingHit (heurText subject body) = false →
        interestedHit (heurText subject body) = false →
        notInterestedHit (heurText subject body) = true →
      imapFallbackHeuristic subject body = some Category.notInterested)
    ∧ (oooHit (heurText subject body) = false → meetingHit (heurText subject body) = false →
        interestedHit (heurText subject body) = false →
        notInterestedHit (heurText subject body) = false →
        spamHit (heurText subject body) = true →
      imapFallbackHeuristic subject body = some Category.spam)
    ∧ (oooHit (heurText subject body) = false → meetingHit (heurText subject body) = false →
        interestedHit (heurText subject body) = false →
        notInterestedHit (heurText subject body) = false →
        spamHit (heurText subject body) = false →
      imapFallbackHeuristic subject body = none) := by
  refine ⟨?_, ?_, ?_, ?_, ?_, ?_, ?_⟩ <;>
    intro h <;>
    simp_all [imapFallbackHeuristic]

/-- C3 witness: the heuristic at concrete inputs, via the theorem. -/
theorem C3_heuristic_priority_witness :
    imapFallbackHeuristic "Out of Office reply" "grab this free deal" = some Category.outOfOffice
    ∧ imapFallbackHeuristic "hello" "world" = none := by
  exact ⟨(C3_heuristic_priority "Out of Office reply" "grab this free deal").2.1
      ⟨by decide, by decide⟩,
    (C3_heuristic_priority "hello" "world").2.2.2.2.2.2
      (by decide) (by decide) (by decide) (by decide) (by decide)⟩

/-- Events the pipeline emits against its collaborators, in order:
store save, search-index write, Slack alert, outbound webhook, realtime
socket broadcast. -/
inductive Ev
  | save (e : Email)
  | index (e : Email)
  | slack (e : Email)
  | webhook (e : Email)
  | emit (e : Email)
deriving DecidableEq

/-- Whether an event is a store save. -/
def evIsSave : Ev → Bool
  | .save _ => true
  | _ => false

/-- Whether an event is a Slack notification. -/
def evIsSlack : Ev → Bool
  | .slack _ => true
  | _ => false

/-- Whether an event is a webhook invocation. -/
def evIsWebhook : Ev → Bool
  | .webhook _ => true
  | _ => false

/-- `Email.findOne({ messageId })`: first stored record with that id. -/
def findOne (store : List Email) (mid : String) : Option Email :=
  store.find? (fun e => e.messageId = mid)

/-- Mongoose `email.save()` on an existing record: replace the stored
record carrying this record's id. -/
def saveEmail (store : List Email) (e : Email) : List Email :=
  store.map (fun x => if x.messageId = e.messageId then e else x)

/-- The message ids of a store, in order. -/
def ids (store : List Email) : List String := store.map Email.messageId

/-- Number of stored records carrying a given external id. -/
def countId (store : List Email) (mid : String) : Nat :=
  (store.filter (fun e => e.messageId = mid)).length

/-- `mapGmailLabelsToCategory` of `imapService`: conservative allow-list
translation of provider labels into the category enumeration. -/
def mapGmailLabelsToCategory (labels : Option (List String)) : Option Category :=
  match labels with
  | none => none
  | some ls =>
    if ls.isEmpty then none
    else
      let normalized := ls.map lower
      if normalized.any (fun l => containsSub l "spam" || containsSub l "junk") then some .spam
      else if normalized.any (fun l => containsSub l "interested") then some .interested
      else none

/-- The synthesized external id `account-Date.now()-seqno` used when the
parsed message carries no native id (`now` is the clock value observed at
processing time). -/
def synthMessageId (account : String) (now : Int) (seqno : Nat) : String :=
  account ++ "-" ++ toString now ++ "-" ++ toString seqno

/-- `parsed.messageId || synthesized`: the external id of one processing. -/
def deriveMessageId (p : ParsedMail) (account : String) (now : Int) (seqno : Nat) : String :=
  jsOptOr p.messageId (synthMessageId account now seqno)

/-- Attachment metadata normalization (`filename || 'unknown'`,
`size || 0`). -/
def normAttachments (p : ParsedMail) : List Attachment :=
  p.attachments.map (fun a => ⟨jsOptOr a.filename "unknown", a.size.getD 0⟩)

/-- The update branch of `fetchAndProcessEmails`: overwrite every
non-category mutable field of the existing record from the parsed
message. -/
def updateFields (e0 : Email) (p : ParsedMail) (account : String) (now : Int) : Email :=
  { e0 with
    account := account
    folder := "INBOX"
    fromAddr := jsOptOr p.fromText "unknown"
    toAddrs := p.toAddrs.getD []
    subject := jsOptOr p.subject "(No Subject)"
    body := jsOptOr p.text ""
    html := jsOptOr p.html ""
    date := p.date.getD now
    attachments := normAttachments p }

/-- `if (!email.category && labelCategory) email.category = labelCategory`. -/
def applyLabelHint (e : Email) (hint : Option Category) : Email :=
  if e.category.isNone && hint.isSome then { e with category := hint } else e

/-- The create branch of `fetchAndProcessEmails` (`Email.create({...})`),
category pre-seeded from the label hint when present. -/
def createEmail (p : ParsedMail) (account : String) (now : Int) (seqno : Nat)
    (hint : Option Category) : Email :=
  { messageId := deriveMessageId p account now seqno
    account := account
    folder := "INBOX"
    fromAddr := jsOptOr p.fromText "unknown"
    toAddrs := p.toAddrs.getD []
    subject := jsOptOr p.subject "(No Subject)"
    body := jsOptOr p.text ""
    html := jsOptOr p.html ""
    date := p.date.getD now
    isRead := false
    isFlagged := false
    attachments := normAttachments p
    category := hint }

/-- The record as it stands right after the upsert step (before
categorization) of one `fetchAndProcessEmails` message handler. -/
def upsertedEmail (store : List Email) (p : ParsedMail) (labels : Option (List String))
    (account : String) (now : Int) (seqno : Nat) : Email :=
  match findOne store (deriveMessageId p account now seqno) with
  | some e0 => applyLabelHint (updateFields e0 p account now) (mapGmailLabelsToCategory labels)
  | none => createEmail p account now seqno (mapGmailLabelsToCategory labels)

/-- Result of processing one fetched message: final store, collaborator
event trace, the in-memory record at the end, and whether the classifier
stage was invoked. -/
structure ProcResult where
  store : List Email
  trace : List Ev
  email : Email
  aiInvoked : Bool
deriving DecidableEq

/-- Last steps of the message handler (`indexEmail`, conditional Slack +
webhook when the record's category is exactly Interested, realtime
`io.emit`). -/
def finishProcessing (store : List Email) (e : Email) (trace : List Ev)
    (ai : Bool) : ProcResult :=
  let tr1 := trace ++ [Ev.index e]
  let tr2 := if e.category = some Category.interested
    then tr1 ++ [Ev.slack e, Ev.webhook e] else tr1
  ProcResult.mk store (tr2 ++ [Ev.emit e]) e ai

/-- Tail of the message handler after the upsert: the
`if (!hasCategory)` classifier/heuristic block, then index, conditional
Slack + webhook, and the realtime emit. -/
def categorizeAndFinish (store : List Email) (email : Email) (trace : List Ev)
    (cfg : AIConfig) (resp : Except AIError (Option String)) : ProcResult :=
  if email.category.isSome then
    finishProcessing store email trace false
  else
    match categorizeEmail email cfg resp with
    | some c =>
      let e1 := { email with category := some c }
      finishProcessing (saveEmail store e1) e1 (trace ++ [Ev.save e1]) true
    | none =>
      match imapFallbackHeuristic email.subject email.body with
      | some c =>
        let e1 := { email with category := some c }
        finishProcessing (saveEmail store e1) e1 (trace ++ [Ev.save e1]) true
      | none => finishProcessing store email trace true

/-- One message handler of `fetchAndProcessEmails`: upsert by external id,
then categorize / index / notify / emit. -/
def processMessage (store : List Email) (p : ParsedMail) (labels : Option (List String))
    (account : String) (now : Int) (seqno : Nat)
    (cfg : AIConfig) (resp : Except AIError (Option String)) : ProcResult :=
  match findOne store (deriveMessageId p account now seqno) with
  | some _ =>
    categorizeAndFinish (saveEmail store (upsertedEmail store p labels account now seqno))
      (upsertedEmail store p labels account now seqno)
      [Ev.save (upsertedEmail store p labels account now seqno)] cfg resp
  | none =>
    categorizeAndFinish (store ++ [upsertedEmail store p labels account now seqno])
      (upsertedEmail store p labels account now seqno)
      [Ev.save (upsertedEmail store p labels account now seqno)] cfg resp

/-- The category the ingestion pipeline ends up with, as a function of the
upserted record: an existing category short-circuits, otherwise the
classifier result, otherwise the keyword fallback. -/
def resolveCategory (e : Email) (cfg : AIConfig)
    (resp : Except AIError (Option String)) : Option Category :=
  match e.category with
  | some c => some c
  | none =>
    match categorizeEmail e cfg resp with
    | some c => some c
    | none => imapFallbackHeuristic e.subject e.body

/-- A successful lookup returns a member carrying the looked-up id. -/
theorem findOne_some (store : List Email) (mid : String) (e : Email)
    (h : findOne store mid = some e) : e.messageId = mid ∧ e ∈ store := by
  refine ⟨?_, List.mem_of_find?_eq_some h⟩
  have := List.find?_some h
  simpa using this

/-- A failed lookup means no member carries the id. -/
theorem findOne_none (store : List Email) (mid : String)
    (h : findOne store mid = none) : ∀ e ∈ store, e.messageId ≠ mid := by
  intro e he
  have := List.find?_eq_none.mp h e he
  simpa using this

/-- Saving never changes the id sequence of the store. -/
theorem ids_saveEmail (store : List Email) (e : Email) :
    ids (saveEmail store e) = ids store := by
  induction store with
  | nil => rfl
  | cons x xs ih =>
    simp only [saveEmail, ids, List.map_cons] at ih ⊢
    by_cases h : x.messageId = e.messageId
    · simp [h, ih]
    · simp [h, ih]

/-- Appending a record appends its id. -/
theorem ids_append (store : List Email) (e : Email) :
    ids (store ++ [e]) = ids store ++ [e.messageId] := by
  simp [ids]

/-- `countId` only depends on the id sequence. -/
theorem countId_eq_count (store : List Email) (mid : String) :
    countId store mid = (ids store).count mid := by
  induction store with
  | nil => rfl
  | cons x xs ih =>
    by_cases h : x.messageId = mid
    · simp [countId, ids, List.count_cons, h, List.filter] at ih ⊢
      omega
    · simp [countId, ids, List.count_cons, h, List.filter] at ih ⊢
      exact ih

/-- Saving preserves per-id record counts. -/
theorem countId_saveEmail (store : List Email) (e : Email) (mid : String) :
    countId (saveEmail store e) mid = countId store mid := by
  rw [countId_eq_count, countId_eq_count, ids_saveEmail]

/-- After saving a record over an id that is present, looking the id up
yields exactly the saved record. -/
theorem findOne_saveEmail_self (store : List Email) (e0 e : Email)
    (h : findOne store e.messageId = some e0) :
    findOne (saveEmail store e) e.messageId = some e := by
  induction store with
  | nil => simp [findOne] at h
  | cons x xs ih =>
    by_cases hx : x.messageId = e.messageId
    · simp [findOne, saveEmail, hx]
    · have h2 : findOne xs e.messageId = some e0 := by
        simpa [findOne, List.find?_cons, hx] using h
      simpa [findOne, saveEmail, List.find?_cons, hx] using ih h2

/-- Looking up the id of a freshly appended record (absent before) yields
that record. -/
theorem findOne_append_self (store : List Email) (e : Email)
    (h : findOne store e.messageId = none) :
    findOne (store ++ [e]) e.messageId = some e := by
  induction store with
  | nil => simp [findOne]
  | cons x xs ih =>
    by_cases hx : x.messageId = e.messageId
    · simp [findOne, List.find?_cons, hx] at h
    · have h2 : findOne xs e.messageId = none := by
        simpa [findOne, List.find?_cons, hx] using h
      simpa [findOne, List.find?_cons, hx] using ih h2

/-- A member whose id differs from the saved record's id survives a save
unchanged. -/
theorem mem_saveEmail_of_ne (store : List Email) (e x : Email)
    (hx : x ∈ store) (hne : x.messageId ≠ e.messageId) :
    x ∈ saveEmail store e := by
  unfold saveEmail
  refine List.mem_map.mpr ⟨x, hx, ?_⟩
  simp [hne]

/-- In a store with no duplicate ids, each id is carried by at most one
record. -/
theorem countId_le_one (store : List Email) (mid : String)
    (h : (ids store).Nodup) : countId store mid ≤ 1 := by
  rw [countId_eq_count]
  exact List.nodup_iff_count_le_one.mp h mid

/-- A present id is carried by at least one record. -/
theorem countId_pos (store : List Email) (mid : String) (e : Email)
    (h : findOne store mid = some e) : 1 ≤ countId store mid := by
  rw [countId_eq_count]
  obtain ⟨hid, hmem⟩ := findOne_some store mid e h
  have : mid ∈ ids store := by
    simpa [ids, hid] using List.mem_map_of_mem Email.messageId hmem
  exact List.count_pos_iff.mpr this

/-- An absent id is carried by no record. -/
theorem countId_zero (store : List Email) (mid : String)
    (h : findOne store mid = none) : countId store mid = 0 := by
  rw [countId_eq_count]
  rw [List.count_eq_zero]
  intro hmem
  obtain ⟨e, hm, he⟩ := List.mem_map.mp hmem
  exact findOne_none store mid h e hm he

/-- Two records agreeing on every field except possibly `category`. -/
def sameButCategory (a b : Email) : Prop :=
  a.messageId = b.messageId ∧ a.account = b.account ∧ a.folder = b.folder
    ∧ a.fromAddr = b.fromAddr ∧ a.toAddrs = b.toAddrs ∧ a.subject = b.subject
    ∧ a.body = b.body ∧ a.html = b.html ∧ a.date = b.date ∧ a.isRead = b.isRead
    ∧ a.isFlagged = b.isFlagged ∧ a.attachments = b.attachments

/-- A record whose non-category fields are exactly the normalization of a
parsed message. -/
def reflectsIngestion (e : Email) (p : ParsedMail) (account : String) (now : Int) : Prop :=
  e.account = account ∧ e.folder = "INBOX"
    ∧ e.fromAddr = jsOptOr p.fromText "unknown"
    ∧ e.toAddrs = p.toAddrs.getD []
    ∧ e.subject = jsOptOr p.subject "(No Subject)"
    ∧ e.body = jsOptOr p.text ""
    ∧ e.html = jsOptOr p.html ""
    ∧ e.date = p.date.getD now
    ∧ e.attachments = normAttachments p

/-- Agreement outside `category` transfers `reflectsIngestion`. -/
theorem reflectsIngestion_of_sameButCategory (a b : Email) (p : ParsedMail)
    (account : String) (now : Int) (hs : sameButCategory a b)
    (hr : reflectsIngestion b p account now) : reflectsIngestion a p account now := by
  obtain ⟨_, h2, h3, h4, h5, h6, h7, h8, h9, _, _, h12⟩ := hs
  obtain ⟨g1, g2, g3, g4, g5, g6, g7, g8, g9⟩ := hr
  exact ⟨h2.trans g1, h3.trans g2, h4.trans g3, h5.trans g4, h6.trans g5,
    h7.trans g6, h8.trans g7, h9.trans g8, h12.trans g9⟩

/-- The label hint only ever touches `category`. -/
theorem applyLabelHint_sameButCategory (e : Email) (hint : Option Category) :
    sameButCategory (applyLabelHint e hint) e := by
  unfold applyLabelHint sameButCategory
  by_cases h : e.category.isNone && hint.isSome <;> simp [h]

/-- The label hint never erases or overwrites a present category. -/
theorem applyLabelHint_category_some (e : Email) (hint : Option Category)
    (c : Category) (h : e.category = some c) :
    (applyLabelHint e hint).category = some c := by
  unfold applyLabelHint
  simp [h]

/-- The update branch fills the non-category fields from the parsed
message. -/
theorem updateFields_reflects (e0 : Email) (p : ParsedMail) (account : String) (now : Int) :
    reflectsIngestion (updateFields e0 p account now) p account now := by
  unfold updateFields reflectsIngestion
  simp

/-- The create branch fills the non-category fields from the parsed
message. -/
theorem createEmail_reflects (p : ParsedMail) (account : String) (now : Int)
    (seqno : Nat) (hint : Option Category) :
    reflectsIngestion (createEmail p account now seqno hint) p account now := by
  unfold createEmail reflectsIngestion
  simp

/-- The upserted record carries the derived external id. -/
theorem upsertedEmail_messageId (store : List Email) (p : ParsedMail)
    (labels : Option (List String)) (account : String) (now : Int) (seqno : Nat) :
    (upsertedEmail store p labels account now seqno).messageId =
      deriveMessageId p account now seqno := by
  unfold upsertedEmail
  cases hf : findOne store (deriveMessageId p account now seqno) with
  | none => rfl
  | some e0 =>
    have hid := (findOne_some _ _ _ hf).1
    have hs := applyLabelHint_sameButCategory (updateFields e0 p account now)
      (mapGmailLabelsToCategory labels)
    calc (applyLabelHint (updateFields e0 p account now) (mapGmailLabelsToCategory labels)).messageId
        = (updateFields e0 p account now).messageId := hs.1
      _ = e0.messageId := rfl
      _ = _ := hid

/-- The upserted record's non-category fields are the normalization of the
parsed message. -/
theorem upsertedEmail_reflects (store : List Email) (p : ParsedMail)
    (labels : Option (List String)) (account : String) (now : Int) (seqno : Nat) :
    reflectsIngestion (upsertedEmail store p labels account now seqno) p account now := by
  unfold upsertedEmail
  cases hf : findOne store (deriveMessageId p account now seqno) with
  | none => exact createEmail_reflects p account now seqno _
  | some e0 =>
    exact reflectsIngestion_of_sameButCategory _ _ p account now
      (applyLabelHint_sameButCategory _ _) (updateFields_reflects e0 p account now)

/-- An existing category survives the upsert step untouched. -/
theorem upsertedEmail_category_some (store : List Email) (p : ParsedMail)
    (labels : Option (List String)) (account : String) (now : Int) (seqno : Nat)
    (e0 : Email) (c : Category)
    (hf : findOne store (deriveMessageId p account now seqno) = some e0)
    (hc : e0.category = some c) :
    (upsertedEmail store p labels account now seqno).category = some c := by
  unfold upsertedEmail
  rw [hf]
  exact applyLabelHint_category_some _ _ c (by simpa [updateFields] using hc)

/-- Projections of `finishProcessing`. -/
theorem finishProcessing_proj (store : List Email) (e : Email) (trace : List Ev) (ai : Bool) :
    (finishProcessing store e trace ai).store = store
    ∧ (finishProcessing store e trace ai).email = e
    ∧ (finishProcessing store e trace ai).aiInvoked = ai
    ∧ (finishProcessing store e trace ai).trace =
        trace ++ Ev.index e ::
          ((if e.category = some Category.interested
            then [Ev.slack e, Ev.webhook e] else []) ++ [Ev.emit e]) := by
  refine ⟨rfl, rfl, rfl, ?_⟩
  unfold finishProcessing
  by_cases h : e.category = some Category.interested <;> simp [h]

/-- Case shape of the post-upsert block: either the record already had a
category (nothing re-runs), or a category is resolved and saved, or no
stage yields one and the record is left uncategorized. -/
theorem categorizeAndFinish_shape (store : List Email) (email : Email) (trace : List Ev)
    (cfg : AIConfig) (resp : Except AIError (Option String)) :
    (email.category.isSome = true
      ∧ categorizeAndFinish store email trace cfg resp =
          finishProcessing store email trace false)
    ∨ (email.category = none
      ∧ ∃ c, resolveCategory email cfg resp = some c
      ∧ categorizeAndFinish store email trace cfg resp =
          finishProcessing (saveEmail store { email with category := some c })
            { email with category := some c }
            (trace ++ [Ev.save { email with category := some c }]) true)
    ∨ (email.category = none
      ∧ resolveCategory email cfg resp = none
      ∧ categorizeAndFinish store email trace cfg resp =
          finishProcessing store email trace true) := by
  cases hc : email.category with
  | some c =>
    left
    constructor
    · simp [hc]
    · unfold categorizeAndFinish
      simp [hc]
  | none =>
    right
    cases hai : categorizeEmail email cfg resp with
    | some c =>
      left
      refine ⟨rfl, c, ?_, ?_⟩
      · unfold resolveCategory
        simp [hc, hai]
      · unfold categorizeAndFinish
        simp [hc, hai]
    | none =>
      cases hh : imapFallbackHeuristic email.subject email.body with
      | some c =>
        left
        refine ⟨rfl, c, ?_, ?_⟩
        · unfold resolveCategory
          simp [hc, hai, hh]
        · unfold categorizeAndFinish
          simp [hc, hai, hh]
      | none =>
        right
        refine ⟨rfl, ?_, ?_⟩
        · unfold resolveCategory
          simp [hc, hai, hh]
        · unfold categorizeAndFinish
          simp [hc, hai, hh]

/-- `sameButCategory` is reflexive. -/
theorem sameButCategory_refl (e : Email) : sameButCategory e e := by
  unfold sameButCategory
  simp

/-- Updating only the category field agrees with the original outside
`category`. -/
theorem sameButCategory_setCategory (e : Email) (c : Option Category) :
    sameButCategory { e with category := c } e := by
  unfold sameButCategory
  simp

/-- The record the post-upsert block ends with: same non-category fields as
its input, category given by `resolveCategory`, classifier invoked exactly
when the input was uncategorized. -/
theorem categorizeAndFinish_email (store : List Email) (email : Email) (trace : List Ev)
    (cfg : AIConfig) (resp : Except AIError (Option String)) :
    sameButCategory (categorizeAndFinish store email trace cfg resp).email email
    ∧ (categorizeAndFinish store email trace cfg resp).email.category =
        resolveCategory email cfg resp
    ∧ (categorizeAndFinish store email trace cfg resp).aiInvoked = email.category.isNone := by
  rcases categorizeAndFinish_shape store email trace cfg resp with
    ⟨h1, heq⟩ | ⟨h1, c, hres, heq⟩ | ⟨h1, hres, heq⟩
  · rw [heq]
    obtain ⟨c, hc⟩ := Option.isSome_iff_exists.mp h1
    refine ⟨sameButCategory_refl email, ?_, ?_⟩
    · unfold finishProcessing resolveCategory
      simp [hc]
    · unfold finishProcessing
      simp [hc]
  · rw [heq]
    refine ⟨?_, ?_, ?_⟩
    · exact sameButCategory_setCategory email (some c)
    · unfold finishProcessing
      simp [hres]
    · unfold finishProcessing
      simp [h1]
  · rw [heq]
    refine ⟨sameButCategory_refl email, ?_, ?_⟩
    · show email.category = resolveCategory email cfg resp
      rw [h1, hres]
    · unfold finishProcessing
      simp [h1]

/-- After the post-upsert block, the input record's id still resolves to
the block's final record, and the id sequence of the store is unchanged. -/
theorem categorizeAndFinish_store (store : List Email) (email : Email) (trace : List Ev)
    (cfg : AIConfig) (resp : Except AIError (Option String))
    (hfind : findOne store email.messageId = some email) :
    findOne (categorizeAndFinish store email trace cfg resp).store email.messageId =
      some (categorizeAndFinish store email trace cfg resp).email
    ∧ ids (categorizeAndFinish store email trace cfg resp).store = ids store := by
  rcases categorizeAndFinish_shape store email trace cfg resp with
    ⟨h1, heq⟩ | ⟨h1, c, hres, heq⟩ | ⟨h1, hres, heq⟩
  · rw [heq]
    exact ⟨hfind, rfl⟩
  · rw [heq]
    exact ⟨findOne_saveEmail_self store email _ hfind, ids_saveEmail store _⟩
  · rw [heq]
    exact ⟨hfind, rfl⟩

/-- Shape of one whole message processing: the final record is the upserted
record with its resolved category; the store resolves the derived id to it;
the id sequence either stays (update) or grows by the new id (create). -/
theorem processMessage_spec (store : List Email) (p : ParsedMail)
    (labels : Option (List String)) (account : String) (now : Int) (seqno : Nat)
    (cfg : AIConfig) (resp : Except AIError (Option String)) :
    sameButCategory (processMessage store p labels account now seqno cfg resp).email
        (upsertedEmail store p labels account now seqno)
    ∧ (processMessage store p labels account now seqno cfg resp).email.category =
        resolveCategory (upsertedEmail store p labels account now seqno) cfg resp
    ∧ (processMessage store p labels account now seqno cfg resp).aiInvoked =
        (upsertedEmail store p labels account now seqno).category.isNone
    ∧ findOne (processMessage store p labels account now seqno cfg resp).store
        (deriveMessageId p account now seqno) =
        some (processMessage store p labels account now seqno cfg resp).email
    ∧ ids (processMessage store p labels account now seqno cfg resp).store =
        (match findOne store (deriveMessageId p account now seqno) with
          | some _ => ids store
          | none => ids store ++ [deriveMessageId p account now seqno]) := by
  have hmid := upsertedEmail_messageId store p labels account now seqno
  cases hf : findOne store (deriveMessageId p account now seqno) with
  | some e0 =>
    have hproc : processMessage store p labels account now seqno cfg resp =
        categorizeAndFinish (saveEmail store (upsertedEmail store p labels account now seqno))
          (upsertedEmail store p labels account now seqno)
          [Ev.save (upsertedEmail store p labels account now seqno)] cfg resp := by
      unfold processMessage
      rw [hf]
    have hfind : findOne (saveEmail store (upsertedEmail store p labels account now seqno))
        (upsertedEmail store p labels account now seqno).messageId =
        some (upsertedEmail store p labels account now seqno) := by
      apply findOne_saveEmail_self
      rw [hmid]
      exact hf
    obtain ⟨hs1, hs2⟩ := categorizeAndFinish_store _ _ _ cfg resp hfind
    obtain ⟨he1, he2, he3⟩ := categorizeAndFinish_email
      (saveEmail store (upsertedEmail store p labels account now seqno))
      (upsertedEmail store p labels account now seqno)
      [Ev.save (upsertedEmail store p labels account now seqno)] cfg resp
    rw [hproc]
    rw [hmid] at hs1
    refine ⟨he1, he2, he3, hs1, ?_⟩
    rw [hs2, ids_saveEmail]
  | none =>
    have hproc : processMessage store p labels account now seqno cfg resp =
        categorizeAndFinish (store ++ [upsertedEmail store p labels account now seqno])
          (upsertedEmail store p labels account now seqno)
          [Ev.save (upsertedEmail store p labels account now seqno)] cfg resp := by
      unfold processMessage
      rw [hf]
    have hfind : findOne (store ++ [upsertedEmail store p labels account now seqno])
        (upsertedEmail store p labels account now seqno).messageId =
        some (upsertedEmail store p labels account now seqno) := by
      apply findOne_append_self
      rw [hmid]
      exact hf
    obtain ⟨hs1, hs2⟩ := categorizeAndFinish_store _ _ _ cfg resp hfind
    obtain ⟨he1, he2, he3⟩ := categorizeAndFinish_email
      (store ++ [upsertedEmail store p labels account now seqno])
      (upsertedEmail store p labels account now seqno)
      [Ev.save (upsertedEmail store p labels account now seqno)] cfg resp
    rw [hproc]
    rw [hmid] at hs1
    refine ⟨he1, he2, he3, hs1, ?_⟩
    rw [hs2, ids_append, hmid]

/-- Processing preserves absence of duplicate ids, and afterwards the
derived id is carried by exactly one record. -/
theorem processMessage_count (store : List Email) (p : ParsedMail)
    (labels : Option (List String)) (account : String) (now : Int) (seqno : Nat)
    (cfg : AIConfig) (resp : Except AIError (Option String))
    (hnd : (ids store).Nodup) :
    (ids (processMessage store p labels account now seqno cfg resp).store).Nodup
    ∧ countId (processMessage store p labels account now seqno cfg resp).store
        (deriveMessageId p account now seqno) = 1 := by
  obtain ⟨-, -, -, -, hids⟩ := processMessage_spec store p labels account now seqno cfg resp
  cases hf : findOne store (deriveMessageId p account now seqno) with
  | some e0 =>
    rw [hf] at hids
    constructor
    · rw [hids]
      exact hnd
    · rw [countId_eq_count, hids]
      have h1 := countId_pos store _ e0 hf
      have h2 := countId_le_one store (deriveMessageId p account now seqno) hnd
      rw [countId_eq_count] at h1 h2
      exact le_antisymm h2 h1
  | none =>
    rw [hf] at hids
    have hnotmem : deriveMessageId p account now seqno ∉ ids store := by
      intro hmem
      obtain ⟨e, hm, he⟩ := List.mem_map.mp hmem
      exact findOne_none store _ hf e hm he
    constructor
    · rw [hids]
      exact List.nodup_append.mpr ⟨hnd, List.nodup_singleton _, by
        intro a ha hb
        simp only [List.mem_singleton] at hb
        exact hnotmem (hb ▸ ha)⟩
    · rw [countId_eq_count, hids, List.count_append]
      have : (ids store).count (deriveMessageId p account now seqno) = 0 :=
        List.count_eq_zero.mpr hnotmem
      simp [this]

/-- C1: ingesting a raw message whose external id already has a stored
record with a category present leaves that category unchanged — the label
hint is not applied over it, the classifier/heuristic stages are not
re-run (`aiInvoked = false`), and the category is never reset to absent. -/
theorem C1_existing_category_preserved
    (store : List Email) (p : ParsedMail) (labels : Option (List String))
    (account : String) (now : Int) (seqno : Nat)
    (cfg : AIConfig) (resp : Except AIError (Option String))
    (e0 : Email) (c : Category)
    (hfind : findOne store (deriveMessageId p account now seqno) = some e0)
    (hcat : e0.category = some c) :
    (processMessage store p labels account now seqno cfg resp).email.category = some c
    ∧ (processMessage store p labels account now seqno cfg resp).aiInvoked = false
    ∧ findOne (processMessage store p labels account now seqno cfg resp).store
        (deriveMessageId p account now seqno) =
        some (processMessage store p labels account now seqno cfg resp).email := by
  obtain ⟨hsame, hcatr, hai, hlook, hids⟩ :=
    processMessage_spec store p labels account now seqno cfg resp
  have hup := upsertedEmail_category_some store p labels account now seqno e0 c hfind hcat
  refine ⟨?_, ?_, hlook⟩
  · rw [hcatr]
    unfold resolveCategory
    rw [hup]
  · rw [hai, hup]
    rfl

/-- Concrete stored record used to witness C1: already categorized. -/
def w1Stored : Email :=
  ⟨"m1", "bob@acme.com", "INBOX", "alice@acme.com", ["bob@x.com"], "old subject",
    "old body", "", 3, false, false, [], some Category.meetingBooked⟩

/-- Concrete parsed message used to witness C1 (same external id). -/
def w1Mail : ParsedMail :=
  ⟨some "m1", some "alice@acme.com", some ["bob@x.com"], some "Re: hello",
    some "fresh body", some "", some 5, []⟩

/-- C1 witness: a Spam label hint and a Spam classifier answer leave an
existing Meeting Booked category untouched. -/
theorem C1_existing_category_preserved_witness :
    (processMessage [w1Stored] w1Mail (some ["Spam"]) "bob@acme.com" 9 1
        ⟨false, true, "gpt-4o"⟩ (Except.ok (some "Spam"))).email.category =
      some Category.meetingBooked
    ∧ (processMessage [w1Stored] w1Mail (some ["Spam"]) "bob@acme.com" 9 1
        ⟨false, true, "gpt-4o"⟩ (Except.ok (some "Spam"))).aiInvoked = false := by
  have h := C1_existing_category_preserved [w1Stored] w1Mail (some ["Spam"])
    "bob@acme.com" 9 1 ⟨false, true, "gpt-4o"⟩ (Except.ok (some "Spam"))
    w1Stored Category.meetingBooked (by decide) (by decide)
  exact ⟨h.1, h.2.1⟩

/-- C2: two ingestions with the same external id leave exactly one stored
record for the id; its non-category fields reflect the second ingestion,
and a category present after the first ingestion is still its category. -/
theorem C2_idempotent_upsert
    (store : List Email) (p1 p2 : ParsedMail) (l1 l2 : Option (List String))
    (a1 a2 : String) (n1 n2 : Int) (s1 s2 : Nat)
    (cfg1 cfg2 : AIConfig) (r1 r2 : Except AIError (Option String))
    (m : String)
    (hm1 : deriveMessageId p1 a1 n1 s1 = m)
    (hm2 : deriveMessageId p2 a2 n2 s2 = m)
    (hnd : (ids store).Nodup) :
    countId (processMessage (processMessage store p1 l1 a1 n1 s1 cfg1 r1).store
        p2 l2 a2 n2 s2 cfg2 r2).store m = 1
    ∧ findOne (processMessage (processMessage store p1 l1 a1 n1 s1 cfg1 r1).store
        p2 l2 a2 n2 s2 cfg2 r2).store m =
        some (processMessage (processMessage store p1 l1 a1 n1 s1 cfg1 r1).store
          p2 l2 a2 n2 s2 cfg2 r2).email
    ∧ reflectsIngestion (processMessage (processMessage store p1 l1 a1 n1 s1 cfg1 r1).store
        p2 l2 a2 n2 s2 cfg2 r2).email p2 a2 n2
    ∧ (∀ c, (processMessage store p1 l1 a1 n1 s1 cfg1 r1).email.category = some c →
        (processMessage (processMessage store p1 l1 a1 n1 s1 cfg1 r1).store
          p2 l2 a2 n2 s2 cfg2 r2).email.category = some c) := by
  have hnd1 := (processMessage_count store p1 l1 a1 n1 s1 cfg1 r1 hnd).1
  have hcount2 := (processMessage_count (processMessage store p1 l1 a1 n1 s1 cfg1 r1).store
    p2 l2 a2 n2 s2 cfg2 r2 hnd1).2
  obtain ⟨hsame1, hcat1, hai1, hlook1, hids1⟩ :=
    processMessage_spec store p1 l1 a1 n1 s1 cfg1 r1
  obtain ⟨hsame2, hcat2, hai2, hlook2, hids2⟩ :=
    processMessage_spec (processMessage store p1 l1 a1 n1 s1 cfg1 r1).store
      p2 l2 a2 n2 s2 cfg2 r2
  rw [hm2] at hcount2 hlook2
  rw [hm1] at hlook1
  refine ⟨hcount2, hlook2, ?_, ?_⟩
  · exact reflectsIngestion_of_sameButCategory _ _ p2 a2 n2 hsame2
      (upsertedEmail_reflects _ p2 l2 a2 n2 s2)
  · intro c hc
    have hf2 : findOne (processMessage store p1 l1 a1 n1 s1 cfg1 r1).store
        (deriveMessageId p2 a2 n2 s2) =
        some (processMessage store p1 l1 a1 n1 s1 cfg1 r1).email := by
      rw [hm2]
      exact hlook1
    have hup := upsertedEmail_category_some _ p2 l2 a2 n2 s2 _ c hf2 hc
    rw [hcat2]
    unfold resolveCategory
    rw [hup]

/-- First parsed message used to witness C2. -/
def w2First : ParsedMail :=
  ⟨some "m1", some "carol@x.com", none, some "subject one", some "first body",
    none, some 1, []⟩

/-- Second parsed message used to witness C2: same external id, different
content. -/
def w2Second : ParsedMail :=
  ⟨some "m1", some "carol@x.com", none, some "subject two", some "second body",
    none, some 2, []⟩

/-- C2 witness: double ingestion of id `m1` at concrete inputs, via the
theorem. -/
theorem C2_idempotent_upsert_witness :
    countId (processMessage (processMessage [] w2First none "a@x.com" 1 1
        ⟨true, false, ""⟩ (Except.ok none)).store
        w2Second none "a@x.com" 2 2 ⟨true, false, ""⟩ (Except.ok none)).store "m1" = 1
    ∧ findOne (processMessage (processMessage [] w2First none "a@x.com" 1 1
        ⟨true, false, ""⟩ (Except.ok none)).store
        w2Second none "a@x.com" 2 2 ⟨true, false, ""⟩ (Except.ok none)).store "m1" =
        some (processMessage (processMessage [] w2First none "a@x.com" 1 1
          ⟨true, false, ""⟩ (Except.ok none)).store
          w2Second none "a@x.com" 2 2 ⟨true, false, ""⟩ (Except.ok none)).email := by
  have h := C2_idempotent_upsert [] w2First w2Second none none "a@x.com" "a@x.com"
    1 2 1 2 ⟨true, false, ""⟩ ⟨true, false, ""⟩ (Except.ok none) (Except.ok none)
    "m1" (by decide) (by decide) (by decide)
  exact ⟨h.1, h.2.1⟩

/-- In real mode, a classifier answer matching no known category
(case-insensitively, after trimming) yields no result. -/
theorem categorizeEmail_real_unknown (e : Email) (cfg : AIConfig) (s : String)
    (hd : cfg.dummyMode = false) (hk : cfg.apiKeySet = true)
    (hm : validModels.contains (lower cfg.model) = true)
    (hu : ∀ c ∈ validCategories, lower c.label ≠ lower (jsTrim s)) :
    categorizeEmail e cfg (Except.ok (some s)) = none := by
  unfold categorizeEmail
  simp only [hd, hk, hm, Bool.not_true, if_false, if_true, Bool.false_eq_true, ite_false]
  by_cases ht : jsTrim s = ""
  · simp [ht]
  · have hfind : validCategories.find? (fun c => lower c.label = lower (jsTrim s)) = none :=
      List.find?_eq_none.mpr (fun c hc => by simpa using hu c hc)
    simp [ht, hfind]

/-- In real mode, a classifier answer that case-insensitively matches a
known category is accepted as that category. -/
theorem categorizeEmail_real_accepts (e : Email) (cfg : AIConfig) (s : String) (c : Category)
    (hd : cfg.dummyMode = false) (hk : cfg.apiKeySet = true)
    (hm : validModels.contains (lower cfg.model) = true)
    (hc : c ∈ validCategories) (hlabel : lower c.label = lower (jsTrim s)) :
    categorizeEmail e cfg (Except.ok (some s)) = some c := by
  have hne : jsTrim s ≠ "" := by
    intro h0
    rw [h0] at hlabel
    simp only [validCategories, List.mem_cons, List.not_mem_nil, or_false] at hc
    rcases hc with rfl | rfl | rfl | rfl | rfl <;> revert hlabel <;> decide
  unfold categorizeEmail
  simp only [hd, hk, hm, Bool.not_true, if_false, if_true, Bool.false_eq_true, ite_false]
  simp only [hne, if_false, ite_false]
  simp only [← hlabel]
  simp only [validCategories, List.mem_cons, List.not_mem_nil, or_false] at hc
  rcases hc with rfl | rfl | rfl | rfl | rfl <;> decide

/-- In real mode, an empty classifier answer yields no result. -/
theorem categorizeEmail_real_empty (e : Email) (cfg : AIConfig)
    (hd : cfg.dummyMode = false) (hk : cfg.apiKeySet = true)
    (hm : validModels.contains (lower cfg.model) = true) :
    categorizeEmail e cfg (Except.ok none) = none := by
  have hm2 : lower cfg.model ∈ validModels := by simpa using hm
  unfold categorizeEmail
  simp [hd, hk, hm2]

/-- In real mode, every classifier call failure falls through to the
keyword heuristic chain. -/
theorem categorizeEmail_real_error (e : Email) (cfg : AIConfig) (err : AIError)
    (hd : cfg.dummyMode = false) (hk : cfg.apiKeySet = true)
    (hm : validModels.contains (lower cfg.model) = true) :
    categorizeEmail e cfg (Except.error err) = aiFallbackHeuristic (aiText e) := by
  unfold categorizeEmail
  simp [hd, hk, hm]

/-- Without an API key the service never calls the classifier and runs the
keyword heuristic chain instead. -/
theorem categorizeEmail_noKey (e : Email) (cfg : AIConfig)
    (resp : Except AIError (Option String))
    (hd : cfg.dummyMode = false) (hk : cfg.apiKeySet = false) :
    categorizeEmail e cfg resp = aiFallbackHeuristic (aiText e) := by
  unfold categorizeEmail
  simp [hd, hk]

/-- With an invalid configured model the service never calls the classifier
and runs the keyword heuristic chain instead. -/
theorem categorizeEmail_badModel (e : Email) (cfg : AIConfig)
    (resp : Except AIError (Option String))
    (hd : cfg.dummyMode = false) (hk : cfg.apiKeySet = true)
    (hm : validModels.contains (lower cfg.model) = false) :
    categorizeEmail e cfg resp = aiFallbackHeuristic (aiText e) := by
  have hm2 : lower cfg.model ∉ validModels := by simpa using hm
  unfold categorizeEmail
  simp [hd, hk, hm2]

/-- C4: the classifier result is accepted only when it case-insensitively
equals one of the five known categories; any other response (empty or
unknown, such as "Maybe") and any classifier failure (error, missing key,
invalid model) is non-fatal, never stored, and falls through to the
keyword-heuristic stage. -/
theorem C4_classifier_guard :
    (∀ (e : Email) (cfg : AIConfig) (s : String),
      cfg.dummyMode = false → cfg.apiKeySet = true →
      validModels.contains (lower cfg.model) = true →
      (∀ c ∈ validCategories, lower c.label ≠ lower (jsTrim s)) →
      categorizeEmail e cfg (Except.ok (some s)) = none)
    ∧ (∀ (e : Email) (cfg : AIConfig) (s : String) (c : Category),
      cfg.dummyMode = false → cfg.apiKeySet = true →
      validModels.contains (lower cfg.model) = true →
      c ∈ validCategories → lower c.label = lower (jsTrim s) →
      categorizeEmail e cfg (Except.ok (some s)) = some c)
    ∧ (∀ (e : Email) (cfg : AIConfig),
      cfg.dummyMode = false → cfg.apiKeySet = true →
      validModels.contains (lower cfg.model) = true →
      categorizeEmail e cfg (Except.ok none) = none)
    ∧ (∀ (e : Email) (cfg : AIConfig) (err : AIError),
      cfg.dummyMode = false → cfg.apiKeySet = true →
      validModels.contains (lower cfg.model) = true →
      categorizeEmail e cfg (Except.error err) = aiFallbackHeuristic (aiText e))
    ∧ (∀ (e : Email) (cfg : AIConfig) (resp : Except AIError (Option String)),
      cfg.dummyMode = false → cfg.apiKeySet = false →
      categorizeEmail e cfg resp = aiFallbackHeuristic (aiText e))
    ∧ (∀ (e : Email) (cfg : AIConfig) (resp : Except AIError (Option String)),
      cfg.dummyMode = false → cfg.apiKeySet = true →
      validModels.contains (lower cfg.model) = false →
      categorizeEmail e cfg resp = aiFallbackHeuristic (aiText e))
    ∧ (∀ (store : List Email) (p : ParsedMail) (labels : Option (List String))
        (account : String) (now : Int) (seqno : Nat) (cfg : AIConfig) (s : String),
      cfg.dummyMode = false → cfg.apiKeySet = true →
      validModels.contains (lower cfg.model) = true →
      (∀ c ∈ validCategories, lower c.label ≠ lower (jsTrim s)) →
      findOne store (deriveMessageId p account now seqno) = none →
      mapGmailLabelsToCategory labels = none →
      (processMessage store p labels account now seqno cfg
          (Except.ok (some s))).email.category =
        imapFallbackHeuristic (upsertedEmail store p labels account now seqno).subject
          (upsertedEmail store p labels account now seqno).body) := by
  refine ⟨categorizeEmail_real_unknown, categorizeEmail_real_accepts,
    categorizeEmail_real_empty, categorizeEmail_real_error,
    categorizeEmail_noKey, categorizeEmail_badModel, ?_⟩
  intro store p labels account now seqno cfg s hd hk hm hu hf hl
  obtain ⟨-, hcatr, -, -, -⟩ :=
    processMessage_spec store p labels account now seqno cfg (Except.ok (some s))
  have hupcat : (upsertedEmail store p labels account now seqno).category = none := by
    unfold upsertedEmail
    rw [hf]
    unfold createEmail
    rw [hl]
  have hai := categorizeEmail_real_unknown
    (upsertedEmail store p labels account now seqno) cfg s hd hk hm hu
  rw [hcatr]
  unfold resolveCategory
  rw [hupcat, hai]

/-- Parsed message used to witness C4 (fresh id, no labels). -/
def w4Mail : ParsedMail :=
  ⟨some "m4", some "dave@x.com", none, some "Let us schedule a call",
    some "would love to talk", none, some 4, []⟩

/-- C4 witness: the unrecognized answer "Maybe" is rejected and the stored
category comes from the keyword heuristic (Meeting Booked here), via the
theorem. -/
theorem C4_classifier_guard_witness :
    categorizeEmail (createEmail w4Mail "a@x.com" 4 1 none) ⟨false, true, "GPT-4o"⟩
        (Except.ok (some " Maybe ")) = none
    ∧ (processMessage [] w4Mail none "a@x.com" 4 1 ⟨false, true, "GPT-4o"⟩
        (Except.ok (some " Maybe "))).email.category =
      imapFallbackHeuristic (upsertedEmail [] w4Mail none "a@x.com" 4 1).subject
        (upsertedEmail [] w4Mail none "a@x.com" 4 1).body := by
  constructor
  · exact C4_classifier_guard.1 (createEmail w4Mail "a@x.com" 4 1 none)
      ⟨false, true, "GPT-4o"⟩ " Maybe " rfl rfl (by decide) (by decide)
  · exact C4_classifier_guard.2.2.2.2.2.2 [] w4Mail none "a@x.com" 4 1
      ⟨false, true, "GPT-4o"⟩ " Maybe " rfl rfl (by decide) (by decide)
      (by decide) (by decide)

/-- Trace shape of the post-upsert block: the incoming trace, then possibly
one more save (the category write), then index, then Slack + webhook iff
the final category is Interested, then the realtime emit. -/
theorem categorizeAndFinish_trace (store : List Email) (email : Email) (trace : List Ev)
    (cfg : AIConfig) (resp : Except AIError (Option String)) :
    ∃ extra, (∀ x ∈ extra, evIsSave x = true)
    ∧ (categorizeAndFinish store email trace cfg resp).trace =
        trace ++ extra
          ++ Ev.index (categorizeAndFinish store email trace cfg resp).email ::
            ((if (categorizeAndFinish store email trace cfg resp).email.category =
                some Category.interested
              then [Ev.slack (categorizeAndFinish store email trace cfg resp).email,
                Ev.webhook (categorizeAndFinish store email trace cfg resp).email]
              else [])
              ++ [Ev.emit (categorizeAndFinish store email trace cfg resp).email]) := by
  rcases categorizeAndFinish_shape store email trace cfg resp with
    ⟨h1, heq⟩ | ⟨h1, c, hres, heq⟩ | ⟨h1, hres, heq⟩
  · refine ⟨[], by simp, ?_⟩
    rw [heq]
    have hp := finishProcessing_proj store email trace false
    rw [hp.2.2.2, hp.2.1]
    try simp
  · refine ⟨[Ev.save { email with category := some c }], by simp [evIsSave], ?_⟩
    rw [heq]
    have hp := finishProcessing_proj (saveEmail store { email with category := some c })
      { email with category := some c }
      (trace ++ [Ev.save { email with category := some c }]) true
    rw [hp.2.2.2, hp.2.1]
    try simp
  · refine ⟨[], by simp, ?_⟩
    rw [heq]
    have hp := finishProcessing_proj store email trace true
    rw [hp.2.2.2, hp.2.1]
    try simp

/-- Trace shape of one whole message processing: some saves, then exactly
one index write, then Slack + webhook iff the final category is Interested,
then the realtime emit. -/
theorem processMessage_trace (store : List Email) (p : ParsedMail)
    (labels : Option (List String)) (account : String) (now : Int) (seqno : Nat)
    (cfg : AIConfig) (resp : Except AIError (Option String)) :
    ∃ pre, (∀ x ∈ pre, evIsSave x = true)
    ∧ (processMessage store p labels account now seqno cfg resp).trace =
        pre ++ Ev.index (processMessage store p labels account now seqno cfg resp).email ::
          ((if (processMessage store p labels account now seqno cfg resp).email.category =
              some Category.interested
            then [Ev.slack (processMessage store p labels account now seqno cfg resp).email,
              Ev.webhook (processMessage store p labels account now seqno cfg resp).email]
            else [])
            ++ [Ev.emit (processMessage store p labels account now seqno cfg resp).email]) := by
  cases hf : findOne store (deriveMessageId p account now seqno) with
  | some e0 =>
    have hproc : processMessage store p labels account now seqno cfg resp =
        categorizeAndFinish (saveEmail store (upsertedEmail store p labels account now seqno))
          (upsertedEmail store p labels account now seqno)
          [Ev.save (upsertedEmail store p labels account now seqno)] cfg resp := by
      unfold processMessage
      rw [hf]
    obtain ⟨extra, hsaves, htr⟩ := categorizeAndFinish_trace
      (saveEmail store (upsertedEmail store p labels account now seqno))
      (upsertedEmail store p labels account now seqno)
      [Ev.save (upsertedEmail store p labels account now seqno)] cfg resp
    refine ⟨Ev.save (upsertedEmail store p labels account now seqno) :: extra, ?_, ?_⟩
    · intro x hx
      rcases List.mem_cons.mp hx with rfl | hx2
      · rfl
      · exact hsaves x hx2
    · rw [hproc, htr]
      simp
  | none =>
    have hproc : processMessage store p labels account now seqno cfg resp =
        categorizeAndFinish (store ++ [upsertedEmail store p labels account now seqno])
          (upsertedEmail store p labels account now seqno)
          [Ev.save (upsertedEmail store p labels account now seqno)] cfg resp := by
      unfold processMessage
      rw [hf]
    obtain ⟨extra, hsaves, htr⟩ := categorizeAndFinish_trace
      (store ++ [upsertedEmail store p labels account now seqno])
      (upsertedEmail store p labels account now seqno)
      [Ev.save (upsertedEmail store p labels account now seqno)] cfg resp
    refine ⟨Ev.save (upsertedEmail store p labels account now seqno) :: extra, ?_, ?_⟩
    · intro x hx
      rcases List.mem_cons.mp hx with rfl | hx2
      · rfl
      · exact hsaves x hx2
    · rw [hproc, htr]
      simp

/-- Result of one re-categorization sweep (`emailController.
recategorizeEmails`): final store, collaborator event trace, and the
response counts (`total`, `categorized`, `failed`). -/
structure SweepResult where
  store : List Email
  trace : List Ev
  total : Nat
  categorized : Nat
  failed : Nat
deriving DecidableEq

/-- The sweep's selection: records with no category
(`$or` over missing / null / empty), capped at a batch of 100. -/
def sweepSelected (store : List Email) : List Email :=
  (store.filter (fun e => e.category.isNone)).take 100

/-- One loop iteration of the sweep: classify; on a result save the record
and re-index it and count it categorized, otherwise count it failed. -/
def sweepStep (cfg : AIConfig) (resp : Email → Except AIError (Option String))
    (acc : SweepResult) (e : Email) : SweepResult :=
  match categorizeEmail e cfg (resp e) with
  | some c =>
    { acc with
      store := saveEmail acc.store { e with category := some c }
      trace := acc.trace ++ [Ev.save { e with category := some c },
        Ev.index { e with category := some c }]
      categorized := acc.categorized + 1 }
  | none => { acc with failed := acc.failed + 1 }

/-- `recategorizeEmails` of `emailController`: short-circuit in dummy mode,
otherwise process the selected batch.  The classifier oracle is supplied
per record. -/
def recategorizeEmails (store : List Email) (cfg : AIConfig)
    (resp : Email → Except AIError (Option String)) : SweepResult :=
  if cfg.dummyMode then ⟨store, [], 0, 0, 0⟩
  else (sweepSelected store).foldl (sweepStep cfg resp)
    ⟨store, [], (sweepSelected store).length, 0, 0⟩

/-- Accounting invariant of the sweep loop: every processed record bumps
exactly one of the two counters, and `total` never changes. -/
theorem sweep_fold_counts (cfg : AIConfig) (resp : Email → Except AIError (Option String))
    (todo : List Email) (acc : SweepResult) :
    (todo.foldl (sweepStep cfg resp) acc).categorized
        + (todo.foldl (sweepStep cfg resp) acc).failed =
      acc.categorized + acc.failed + todo.length
    ∧ (todo.foldl (sweepStep cfg resp) acc).total = acc.total := by
  induction todo generalizing acc with
  | nil => simp
  | cons e rest ih =>
    simp only [List.foldl_cons, List.length_cons]
    obtain ⟨ha, hb⟩ := ih (sweepStep cfg resp acc e)
    have hstep : (sweepStep cfg resp acc e).categorized + (sweepStep cfg resp acc e).failed
        = acc.categorized + acc.failed + 1
        ∧ (sweepStep cfg resp acc e).total = acc.total := by
      unfold sweepStep
      cases categorizeEmail e cfg (resp e) <;> simp <;> omega
    refine ⟨?_, ?_⟩
    · rw [ha]
      omega
    · rw [hb]
      exact hstep.2

/-- The sweep loop never emits a Slack or webhook event. -/
theorem sweep_fold_no_notify (cfg : AIConfig) (resp : Email → Except AIError (Option String))
    (todo : List Email) (acc : SweepResult) :
    (todo.foldl (sweepStep cfg resp) acc).trace.countP evIsSlack =
      acc.trace.countP evIsSlack
    ∧ (todo.foldl (sweepStep cfg resp) acc).trace.countP evIsWebhook =
      acc.trace.countP evIsWebhook := by
  induction todo generalizing acc with
  | nil => exact ⟨rfl, rfl⟩
  | cons e rest ih =>
    simp only [List.foldl_cons]
    obtain ⟨ha, hb⟩ := ih (sweepStep cfg resp acc e)
    rw [ha, hb]
    unfold sweepStep
    cases categorizeEmail e cfg (resp e) with
    | some c => simp [List.countP_append, List.countP_cons, evIsSlack, evIsWebhook]
    | none => exact ⟨rfl, rfl⟩

/-- The sweep loop never touches a record whose id is not in the batch. -/
theorem sweep_fold_frame (cfg : AIConfig) (resp : Email → Except AIError (Option String))
    (todo : List Email) (acc : SweepResult) (x : Email)
    (hx : x ∈ acc.store) (hids : ∀ t ∈ todo, t.messageId ≠ x.messageId) :
    x ∈ (todo.foldl (sweepStep cfg resp) acc).store := by
  induction todo generalizing acc with
  | nil => exact hx
  | cons e rest ih =>
    simp only [List.foldl_cons]
    refine ih (sweepStep cfg resp acc e) ?_ (fun t ht => hids t (List.mem_cons_of_mem e ht))
    unfold sweepStep
    cases categorizeEmail e cfg (resp e) with
    | some c =>
      simp only
      exact mem_saveEmail_of_ne acc.store _ x hx
        (fun h => hids e (List.mem_cons_self e rest) h.symm)
    | none => exact hx

/-- C8: each sweep invocation selects only records whose category is
absent, processes at most 100 of them, never modifies an
already-categorized record, and answers counts with
`categorized + failed = total` and `total` the number of scanned records. -/
theorem C8_sweep_bounds (store : List Email) (cfg : AIConfig)
    (resp : Email → Except AIError (Option String))
    (hnd : (ids store).Nodup) :
    (∀ e ∈ sweepSelected store, e.category = none)
    ∧ (sweepSelected store).length ≤ 100
    ∧ (cfg.dummyMode = false →
        (recategorizeEmails store cfg resp).total = (sweepSelected store).length
        ∧ (recategorizeEmails store cfg resp).categorized
            + (recategorizeEmails store cfg resp).failed
            = (recategorizeEmails store cfg resp).total)
    ∧ (∀ x ∈ store, x.category.isSome = true →
        x ∈ (recategorizeEmails store cfg resp).store) := by
  refine ⟨?_, ?_, ?_, ?_⟩
  · intro e he
    have hmem : e ∈ store.filter (fun e => e.category.isNone) :=
      List.mem_of_mem_take he
    have := (List.mem_filter.mp hmem).2
    simpa [Option.isNone_iff_eq_none] using this
  · unfold sweepSelected
    rw [List.length_take]
    exact inf_le_left
  · intro hdm
    unfold recategorizeEmails
    simp only [hdm, Bool.false_eq_true, if_false]
    obtain ⟨hc, ht⟩ := sweep_fold_counts cfg resp (sweepSelected store)
      ⟨store, [], (sweepSelected store).length, 0, 0⟩
    simp only at hc ht
    exact ⟨ht, by omega⟩
  · intro x hx hxs
    unfold recategorizeEmails
    by_cases hdm : cfg.dummyMode
    · simp only [hdm, if_true]
      exact hx
    · simp only [hdm, Bool.false_eq_true, if_false]
      refine sweep_fold_frame cfg resp (sweepSelected store) _ x hx ?_
      intro t ht heq
      have hmem : t ∈ store.filter (fun e => e.category.isNone) :=
        List.mem_of_mem_take ht
      have htn := (List.mem_filter.mp hmem).2
      have hts : t ∈ store := (List.mem_filter.mp hmem).1
      have : t = x := by
        have hinj := List.inj_on_of_nodup_map (f := Email.messageId) hnd
        exact hinj hts hx heq
      rw [this] at htn
      rw [Option.isNone_iff_eq_none] at htn
      rw [htn] at hxs
      simp at hxs

/-- Already-categorized record used in the C8 witness. -/
def w8Done : Email :=
  ⟨"m81", "a@x.com", "INBOX", "x@y.com", [], "done", "done body", "", 1,
    false, false, [], some Category.spam⟩

/-- Uncategorized record used in the C8 witness. -/
def w8Todo : Email :=
  ⟨"m82", "a@x.com", "INBOX", "x@y.com", [], "interested in a demo", "", "", 2,
    false, false, [], none⟩

/-- C8 witness: the sweep over a concrete two-record store, via the
theorem. -/
theorem C8_sweep_bounds_witness :
    (recategorizeEmails [w8Done, w8Todo] ⟨false, false, ""⟩
        (fun _ => Except.ok none)).categorized
      + (recategorizeEmails [w8Done, w8Todo] ⟨false, false, ""⟩
        (fun _ => Except.ok none)).failed
      = (recategorizeEmails [w8Done, w8Todo] ⟨false, false, ""⟩
        (fun _ => Except.ok none)).total
    ∧ w8Done ∈ (recategorizeEmails [w8Done, w8Todo] ⟨false, false, ""⟩
        (fun _ => Except.ok none)).store := by
  have h := C8_sweep_bounds [w8Done, w8Todo] ⟨false, false, ""⟩
    (fun _ => Except.ok none) (by decide)
  exact ⟨(h.2.2.1 rfl).2, h.2.2.2 w8Done (by decide) (by decide)⟩

/-- C5 as stated is violated by the re-categorization sweep: here a sweep
resolves a record's category to Interested, yet no chat alert and no
webhook fire. -/
def c5Lead : Email :=
  ⟨"m5", "a@x.com", "INBOX", "lead@y.com", [], "interested in pricing", "", "",
    0, false, false, [], none⟩

/-- C5 counterexample: the sweep assigns Interested but fires no
notification collaborator. -/
theorem C5_counterexample :
    (recategorizeEmails [c5Lead] ⟨false, false, ""⟩
        (fun _ => Except.ok none)).store.map Email.category =
      [some Category.interested]
    ∧ (recategorizeEmails [c5Lead] ⟨false, false, ""⟩
        (fun _ => Except.ok none)).trace.countP evIsSlack = 0
    ∧ (recategorizeEmails [c5Lead] ⟨false, false, ""⟩
        (fun _ => Except.ok none)).trace.countP evIsWebhook = 0 := by
  decide

/-- C5 (amended): in the ingestion pipeline every category assignment is
followed by persisting, then one Search-Index write, then — iff the
resolved category is exactly Interested — one Slack alert and one webhook;
the re-categorization sweep persists and re-indexes but never fires the
notification collaborators. -/
theorem C5_assignment_side_effects :
    (∀ (store : List Email) (p : ParsedMail) (labels : Option (List String))
        (account : String) (now : Int) (seqno : Nat) (cfg : AIConfig)
        (resp : Except AIError (Option String)),
      (∃ pre, (∀ x ∈ pre, evIsSave x = true)
        ∧ (processMessage store p labels account now seqno cfg resp).trace =
            pre ++ Ev.index (processMessage store p labels account now seqno cfg resp).email ::
              ((if (processMessage store p labels account now seqno cfg resp).email.category =
                  some Category.interested
                then [Ev.slack (processMessage store p labels account now seqno cfg resp).email,
                  Ev.webhook (processMessage store p labels account now seqno cfg resp).email]
                else [])
                ++ [Ev.emit (processMessage store p labels account now seqno cfg resp).email]))
      ∧ (processMessage store p labels account now seqno cfg resp).trace.countP evIsSlack =
          (if (processMessage store p labels account now seqno cfg resp).email.category =
            some Category.interested then 1 else 0)
      ∧ (processMessage store p labels account now seqno cfg resp).trace.countP evIsWebhook =
          (if (processMessage store p labels account now seqno cfg resp).email.category =
            some Category.interested then 1 else 0))
    ∧ (∀ (store : List Email) (cfg : AIConfig)
        (resp : Email → Except AIError (Option String)),
      (recategorizeEmails store cfg resp).trace.countP evIsSlack = 0
      ∧ (recategorizeEmails store cfg resp).trace.countP evIsWebhook = 0) := by
  constructor
  · intro store p labels account now seqno cfg resp
    obtain ⟨pre, hsaves, htr⟩ := processMessage_trace store p labels account now seqno cfg resp
    have hpre1 : pre.countP evIsSlack = 0 :=
      List.countP_eq_zero.mpr (fun x hx => by
        have := hsaves x hx
        cases x <;> simp_all [evIsSave, evIsSlack])
    have hpre2 : pre.countP evIsWebhook = 0 :=
      List.countP_eq_zero.mpr (fun x hx => by
        have := hsaves x hx
        cases x <;> simp_all [evIsSave, evIsWebhook])
    refine ⟨⟨pre, hsaves, htr⟩, ?_, ?_⟩
    · rw [htr]
      by_cases hi : (processMessage store p labels account now seqno cfg resp).email.category =
          some Category.interested <;>
        simp [hi, List.countP_append, List.countP_cons, evIsSlack, hpre1]
    · rw [htr]
      by_cases hi : (processMessage store p labels account now seqno cfg resp).email.category =
          some Category.interested <;>
        simp [hi, List.countP_append, List.countP_cons, evIsWebhook, hpre2]
  · intro store cfg resp
    unfold recategorizeEmails
    by_cases hdm : cfg.dummyMode
    · simp [hdm]
    · simp only [hdm, Bool.false_eq_true, if_false]
      have h := sweep_fold_no_notify cfg resp (sweepSelected store)
        ⟨store, [], (sweepSelected store).length, 0, 0⟩
      simpa using h

/-- Parsed message used in the C5 witness. -/
def w5Mail : ParsedMail :=
  ⟨some "m51", some "lead@y.com", none, some "please send pricing", some "",
    none, some 3, []⟩

/-- C5 witness: notification counts of a concrete processing and a concrete
sweep, via the theorem. -/
theorem C5_assignment_side_effects_witness :
    (processMessage [] w5Mail none "a@x.com" 3 1 ⟨true, false, ""⟩
        (Except.ok none)).trace.countP evIsSlack =
      (if (processMessage [] w5Mail none "a@x.com" 3 1 ⟨true, false, ""⟩
          (Except.ok none)).email.category = some Category.interested then 1 else 0)
    ∧ (recategorizeEmails [] ⟨true, false, ""⟩
        (fun _ => Except.ok none)).trace.countP evIsSlack = 0 := by
  exact ⟨(C5_assignment_side_effects.1 [] w5Mail none "a@x.com" 3 1 ⟨true, false, ""⟩
      (Except.ok none)).2.1,
    (C5_assignment_side_effects.2 [] ⟨true, false, ""⟩ (fun _ => Except.ok none)).1⟩

/-- C9 as stated fails: the synthesized external id uses the clock value
observed at processing time, so re-processing the same raw message later in
the same session yields a different id.  The raw message here has no native
id. -/
def c9Mail : ParsedMail := ⟨none, none, none, none, none, none, none, []⟩

/-- C9 counterexample: the same raw message processed twice in one session
(same account, same sequence number, clock advanced by one) gets two
different synthesized ids and ends up stored twice. -/
theorem C9_counterexample :
    synthMessageId "a@x.com" 0 7 ≠ synthMessageId "a@x.com" 1 7
    ∧ (processMessage (processMessage [] c9Mail none "a@x.com" 0 7 ⟨true, false, ""⟩
        (Except.ok none)).store c9Mail none "a@x.com" 1 7 ⟨true, false, ""⟩
        (Except.ok none)).store.length = 2 := by
  decide

/-- C9 (amended): the synthesized id is a deterministic function of
`{account, observed clock value, sequence number}`; re-processing the same
raw message is idempotent exactly when the observed clock value (and
sequence number) are unchanged, in which case the store keeps a single
record for the synthesized id. -/
theorem C9_amended_synth_determinism (store : List Email) (p : ParsedMail)
    (l1 l2 : Option (List String)) (account : String) (now : Int) (seqno : Nat)
    (cfg1 cfg2 : AIConfig) (r1 r2 : Except AIError (Option String))
    (hnd : (ids store).Nodup) (hp : p.messageId = none) :
    deriveMessageId p account now seqno = synthMessageId account now seqno
    ∧ countId (processMessage (processMessage store p l1 account now seqno cfg1 r1).store
        p l2 account now seqno cfg2 r2).store (synthMessageId account now seqno) = 1 := by
  have hder : deriveMessageId p account now seqno = synthMessageId account now seqno := by
    unfold deriveMessageId
    rw [hp]
    rfl
  refine ⟨hder, ?_⟩
  have hnd1 := (processMessage_count store p l1 account now seqno cfg1 r1 hnd).1
  have h2 := (processMessage_count (processMessage store p l1 account now seqno cfg1 r1).store
    p l2 account now seqno cfg2 r2 hnd1).2
  rw [hder] at h2
  exact h2

/-- C9 amended witness: same clock value, one stored record, via the
theorem. -/
theorem C9_amended_synth_determinism_witness :
    countId (processMessage (processMessage [] c9Mail none "b@x.com" 4 2 ⟨true, false, ""⟩
        (Except.ok none)).store c9Mail none "b@x.com" 4 2 ⟨true, false, ""⟩
        (Except.ok none)).store (synthMessageId "b@x.com" 4 2) = 1 := by
  exact (C9_amended_synth_determinism [] c9Mail none none "b@x.com" 4 2
    ⟨true, false, ""⟩ ⟨true, false, ""⟩ (Except.ok none) (Except.ok none)
    (by decide) (by decide)).2

/-- The descending received-time order used by the search paths
(`sort: date desc`). -/
def dateGe (a b : Email) : Prop := b.date ≤ a.date

instance : DecidableRel dateGe := fun a b => Int.decLe b.date a.date

instance : IsTotal Email dateGe := ⟨fun a b => le_total b.date a.date⟩

instance : IsTrans Email dateGe := ⟨fun _ _ _ hab hbc => le_trans hbc hab⟩

/-- The optional equality filters of the search endpoints. -/
structure SearchFilters where
  account : Option String
  folder : Option String
  category : Option String
deriving DecidableEq

/-- JS truthiness of an optional filter string (`if (filters?.x)`). -/
def optActive : Option String → Option String
  | some s => if s = "" then none else some s
  | none => none

/-- The equality filters (`account`, `folder`, `category`) applied by the
MongoDB fallback scan, honoring JS truthiness. -/
def filterMatch (f : SearchFilters) (e : Email) : Bool :=
  (match optActive f.account with
    | some a => e.account = a
    | none => true)
  && (match optActive f.folder with
    | some a => e.folder = a
    | none => true)
  && (match optActive f.category with
    | some a => (match e.category with | some c => c.label = a | none => false)
    | none => true)

/-- Regex metacharacters of the PCRE-style engine behind MongoDB's
regex operator; a query containing none of these denotes its literal
text. -/
def regexMeta (c : Char) : Bool :=
  c = '.' || c = '^' || c = '$' || c = '*' || c = '+' || c = '?'
    || c = '(' || c = ')' || c = '[' || c = ']' || c = '\x7b' || c = '\x7d'
    || c = '|' || c = '\\'

/-- Whether a query is free of regex metacharacters, so that the engine
treats it as its literal text. -/
def regexFree (s : String) : Bool := s.toList.all (fun c => !(regexMeta c))

/-- The verdict of the case-insensitive regex engine on a pattern it
treats as literal text (every metacharacter-free pattern): unanchored
case-insensitive substring containment.  The pattern arrives already
lower-cased from the service. -/
def litRx (pat text : String) : Bool := containsSub (lower text) pat

/-- `charsLead` extended with the engine's dot wildcard in the pattern. -/
def dotCharsLead : List Char → List Char → Bool
  | [], _ => true
  | _ :: _, [] => false
  | a :: as, b :: bs => (a == '.' || a == b) && dotCharsLead as bs

/-- `charsHold` extended with the engine's dot wildcard in the pattern. -/
def dotCharsHold (pat : List Char) : List Char → Bool
  | [] => dotCharsLead pat []
  | c :: cs => dotCharsLead pat (c :: cs) || dotCharsHold pat cs

/-- The regex engine's verdict on the fragment of patterns built from
literal characters and the dot wildcard, matched case-insensitively and
unanchored — enough to evaluate the engine on the pattern `a.c`. -/
def dotRx (pat text : String) : Bool := dotCharsHold pat.toList (lower text).toList

/-- The `$or` clause of the fallback scan.  The service lower-cases the
query and hands it, with each of subject/body/sender, to the store's
regular-expression engine (`$regex` with the case-insensitive option):
`rx pat text` is that external engine's match verdict, an oracle.  An
empty query adds no clause, so everything matches. -/
def textMatch (rx : String → String → Bool) (query : String) (e : Email) : Bool :=
  if query = "" then true
  else rx (lower query) e.subject || rx (lower query) e.body
    || rx (lower query) e.fromAddr

/-- Full per-record predicate of the fallback scan. -/
def matchesSearch (rx : String → String → Bool) (query : String) (f : SearchFilters)
    (e : Email) : Bool :=
  filterMatch f e && textMatch rx query e

/-- `searchEmailsMongoDB` of `elasticsearchService`: filter, sort by date
descending, cap at 100.  `dbFails` covers any failure of the store query —
including a pattern the regex engine rejects as invalid — which the catch
swallows into an empty result. -/
def searchEmailsMongoDB (rx : String → String → Bool) (store : List Email)
    (dbFails : Bool) (query : String) (f : SearchFilters) : List Email :=
  if dbFails then []
  else (List.insertionSort dateGe (store.filter (matchesSearch rx query f))).take 100

/-- `searchEmails` of `elasticsearchService`.  The Elasticsearch server is
an oracle: availability, index-exists outcome, and the search call's
result (`hits` or error) are inputs; the routing around them is the
service's own logic. -/
def searchEmails (rx : String → String → Bool) (store : List Email)
    (dummyMode esAvailable indexOk : Bool)
    (esResult : Except Unit (List Email)) (dbFails : Bool) (query : String)
    (f : SearchFilters) : List Email :=
  if dummyMode then []
  else if !esAvailable then searchEmailsMongoDB rx store dbFails query f
  else if !indexOk then searchEmailsMongoDB rx store dbFails query f
  else
    match esResult with
    | .ok hits => hits
    | .error _ => searchEmailsMongoDB rx store dbFails query f

/-- Record whose subject dot-matches the pattern `a.c` without containing
it as a literal substring. -/
def w6Dot : Email :=
  ⟨"m60", "a@x.com", "INBOX", "x@y.com", [], "ABC plan", "", "", 7,
    false, false, [], none⟩

/-- C6 counterexample: the scan hands the query to the regex engine, not
to a substring test.  On the metacharacter query `a.c` (dot wildcard) the
scan returns a record none of whose fields contains the query as a
substring, so case-insensitive substring matching is not a universally
correct description of the fallback scan's text clause. -/
theorem C6_counterexample :
    regexFree "a.c" = false
    ∧ searchEmailsMongoDB dotRx [w6Dot] false "a.c" ⟨none, none, none⟩ = [w6Dot]
    ∧ (containsSub (lower w6Dot.subject) (lower "a.c")
        || containsSub (lower w6Dot.body) (lower "a.c")
        || containsSub (lower w6Dot.fromAddr) (lower "a.c")) = false := by
  decide

/-- C6 (amended): whenever the index is unavailable, the index-exists
check fails, or the index search errors, the query is served by the
Message Store scan, which applies the lower-cased query as a
case-insensitive regular-expression pattern over subject/body/sender
intersected with the equality filters, sorts newest first and caps at
100; when the engine treats the pattern as literal text (every
metacharacter-free query), that text clause is exactly case-insensitive
substring matching over subject, body and sender. -/
theorem C6_search_fallback (rx : String → String → Bool) (store : List Email)
    (query : String) (f : SearchFilters)
    (esAvailable indexOk : Bool) (esResult : Except Unit (List Email)) :
    (esAvailable = false →
      searchEmails rx store false esAvailable indexOk esResult false query f =
        searchEmailsMongoDB rx store false query f)
    ∧ (indexOk = false →
      searchEmails rx store false true indexOk esResult false query f =
        searchEmailsMongoDB rx store false query f)
    ∧ (∀ u, esResult = Except.error u →
      searchEmails rx store false esAvailable indexOk esResult false query f =
        searchEmailsMongoDB rx store false query f)
    ∧ List.Sorted dateGe (searchEmailsMongoDB rx store false query f)
    ∧ (searchEmailsMongoDB rx store false query f).length ≤ 100
    ∧ (∀ e ∈ searchEmailsMongoDB rx store false query f,
        e ∈ store ∧ filterMatch f e = true ∧ textMatch rx query e = true)
    ∧ ((store.filter (matchesSearch rx query f)).length ≤ 100 →
        ∀ e ∈ store, matchesSearch rx query f e = true →
          e ∈ searchEmailsMongoDB rx store false query f)
    ∧ ((∀ text, rx (lower query) text = litRx (lower query) text) → query ≠ "" →
        ∀ e ∈ searchEmailsMongoDB rx store false query f,
          (containsSub (lower e.subject) (lower query)
            || containsSub (lower e.body) (lower query)
            || containsSub (lower e.fromAddr) (lower query)) = true) := by
  have hmem : ∀ e ∈ searchEmailsMongoDB rx store false query f,
      e ∈ store ∧ filterMatch f e = true ∧ textMatch rx query e = true := by
    intro e he
    unfold searchEmailsMongoDB at he
    simp only [Bool.false_eq_true, if_false] at he
    have h1 : e ∈ List.insertionSort dateGe (store.filter (matchesSearch rx query f)) :=
      List.mem_of_mem_take he
    have h2 : e ∈ store.filter (matchesSearch rx query f) :=
      (List.perm_insertionSort dateGe _).mem_iff.mp h1
    obtain ⟨hs, hm⟩ := List.mem_filter.mp h2
    unfold matchesSearch at hm
    simp only [Bool.and_eq_true] at hm
    exact ⟨hs, hm.1, hm.2⟩
  refine ⟨?_, ?_, ?_, ?_, ?_, hmem, ?_, ?_⟩
  · intro h
    unfold searchEmails
    simp [h]
  · intro h
    unfold searchEmails
    simp [h]
  · intro u h
    unfold searchEmails
    rw [h]
    by_cases ha : esAvailable <;> by_cases hi : indexOk <;> simp [ha, hi]
  · unfold searchEmailsMongoDB
    simp only [Bool.false_eq_true, if_false]
    exact List.Pairwise.sublist (List.take_sublist _ _)
      (List.sorted_insertionSort dateGe _)
  · unfold searchEmailsMongoDB
    simp only [Bool.false_eq_true, if_false]
    rw [List.length_take]
    exact inf_le_left
  · intro hlen e he hm
    unfold searchEmailsMongoDB
    simp only [Bool.false_eq_true, if_false]
    have hsortlen : (List.insertionSort dateGe (store.filter (matchesSearch rx query f))).length
        = (store.filter (matchesSearch rx query f)).length :=
      (List.perm_insertionSort dateGe _).length_eq
    rw [List.take_of_length_le (by rw [hsortlen]; exact hlen)]
    exact (List.perm_insertionSort dateGe _).mem_iff.mpr
      (List.mem_filter.mpr ⟨he, hm⟩)
  · intro hlit hq e he
    have ht := (hmem e he).2.2
    unfold textMatch at ht
    rw [if_neg hq] at ht
    simp only [hlit] at ht
    unfold litRx at ht
    exact ht

/-- Record used in the C6 witness. -/
def w6Rec : Email :=
  ⟨"m6", "a@x.com", "INBOX", "amy@y.com", [], "Quarterly Budget", "approved", "",
    5, false, false, [], none⟩

/-- C6 witness: an unavailable index routes a concrete literal query to
the store scan, which finds the matching record by substring containment,
via the theorem. -/
theorem C6_search_fallback_witness :
    searchEmails litRx [w6Rec] false false true (Except.ok []) false "budget"
        ⟨none, none, none⟩ =
      searchEmailsMongoDB litRx [w6Rec] false "budget" ⟨none, none, none⟩
    ∧ w6Rec ∈ searchEmailsMongoDB litRx [w6Rec] false "budget" ⟨none, none, none⟩
    ∧ (containsSub (lower w6Rec.subject) (lower "budget")
        || containsSub (lower w6Rec.body) (lower "budget")
        || containsSub (lower w6Rec.fromAddr) (lower "budget")) = true := by
  have h := C6_search_fallback litRx [w6Rec] "budget" ⟨none, none, none⟩
    false true (Except.ok [])
  have hm : w6Rec ∈ searchEmailsMongoDB litRx [w6Rec] false "budget" ⟨none, none, none⟩ :=
    h.2.2.2.2.2.2.1 (by decide) w6Rec (by decide) (by decide)
  exact ⟨h.1 rfl, hm,
    h.2.2.2.2.2.2.2 (fun _ => rfl) (by decide) w6Rec hm⟩

/-- C10: when the Message Store scan of the fallback path itself fails, the
search returns an empty list as a normal result — indistinguishable from a
query with no matches. -/
theorem C10_scan_failure_silent (rx : String → String → Bool) (store : List Email)
    (query : String) (f : SearchFilters)
    (indexOk : Bool) (esResult : Except Unit (List Email)) :
    searchEmailsMongoDB rx store true query f = []
    ∧ searchEmails rx store false false indexOk esResult true query f = []
    ∧ searchEmailsMongoDB rx [] false query f = [] := by
  refine ⟨rfl, ?_, ?_⟩
  · unfold searchEmails searchEmailsMongoDB
    simp
  · unfold searchEmailsMongoDB
    simp
